import Mathlib

/-
Verification of the oxidizr swap-and-restore engine.

This file gives a shallow embedding of the two source files
`src/utils/worker.rs` and `src/experiments/uutils.rs`:

* the filesystem is modelled as an association list from paths to entries
  (regular file with content and permission mode, directory, or symlink);
* the primitives of `std::fs` used by the code (`exists`, `metadata`,
  `copy`, `set_permissions`, `rename`, `remove_file`, `symlink`,
  `read_dir`) are modelled with their documented Unix semantics, in
  particular `fs::exists` and `fs::metadata` follow symbolic links
  (bounded by `MAXSYMLINKS`, a loop yields an error) while
  `Path::is_symlink`, `fs::rename` and `fs::remove_file` operate on the
  link itself;
* process execution and PATH lookup are environment oracles
  (`Command -> Option String` for the stdout of a successful run, `none`
  for a failing run, and `String -> Option Path` for the `which` crate);
* the orchestrator functions additionally return a trace of events
  (commands issued, backups made, symlinks created, files restored) as a
  ghost instrumentation used to state ordering properties.

Fallible Rust functions returning `anyhow::Result` are modelled with
`Except Unit` (the error payload is irrelevant to the claims), except
where the error message itself matters (`TryFrom<LinuxOSReleaseInfo>`,
modelled with `Except String`).
-/

set_option maxHeartbeats 1000000

deriving instance DecidableEq for Except

namespace Oxidizr

/-- A filesystem path, split as the list of components of its parent
directory together with its final component (`Path::parent` /
`Path::file_name` in the source always succeed on the paths the engine
manipulates, so the split is total in the model). -/
structure Path where
  parent : List String
  base : String
deriving DecidableEq

/-- A filesystem entry: a regular file with its content (as bytes) and
its full Unix permission mode (including setuid/setgid/sticky bits), a
directory, or a symbolic link to another path. -/
inductive FsEntry where
  | file (content : List Nat) (mode : Nat)
  | dir
  | symlink (dest : Path)
deriving DecidableEq

/-- The filesystem state: an association list from paths to entries
(first binding wins). -/
abbrev FS := List (Path × FsEntry)

/-- Look up the entry stored at a path (no symlink resolution; this is
`lstat`-like). -/
def lookupFS (fs : FS) (p : Path) : Option FsEntry :=
  match fs with
  | [] => none
  | (q, e) :: rest => if q = p then some e else lookupFS rest p

/-- Drop every binding for a path. -/
def removeFS (fs : FS) (p : Path) : FS :=
  fs.filter (fun q => decide (q.1 ≠ p))

/-- Bind a path to an entry, replacing any previous binding. -/
def setFS (fs : FS) (p : Path) (e : FsEntry) : FS :=
  (p, e) :: removeFS fs p

/-- The direct children of a directory path, in binding order (models
`fs::read_dir`). -/
def childrenFS (fs : FS) (d : Path) : List Path :=
  (fs.filter (fun e => decide (e.1.parent = d.parent ++ [d.base]))).map (fun e => e.1)

/-- Resolve a path through symbolic links, returning the first path that
is not bound to a symlink.  The fuel bounds link chains; exhaustion
models the ELOOP error of the underlying syscalls. -/
def finalPath (fs : FS) : Nat → Path → Except Unit Path
  | 0, _ => .error ()
  | Nat.succ fuel, p =>
    match lookupFS fs p with
    | some (.symlink d) => finalPath fs fuel d
    | _ => .ok p

/-- The kernel bound on symlink chains (SYMLOOP_MAX on Linux). -/
def MAXSYMLINKS : Nat := 40

/-- Models `std::fs::exists`: follows symbolic links; a broken link
reports `false`; a link loop is an error. -/
def fsExists (fs : FS) (p : Path) : Except Unit Bool :=
  match finalPath fs MAXSYMLINKS p with
  | .error e => .error e
  | .ok q => .ok (lookupFS fs q).isSome

/-- Models `std::path::Path::is_symlink`: queries the link itself and
never follows it; reports `false` when the path does not exist. -/
def isSymlinkFS (fs : FS) (p : Path) : Bool :=
  match lookupFS fs p with
  | some (.symlink _) => true
  | _ => false

/-- Models `std::fs::metadata`: follows symbolic links and errors when
the resolved path does not exist. -/
def fsMetadata (fs : FS) (p : Path) : Except Unit FsEntry :=
  match finalPath fs MAXSYMLINKS p with
  | .error e => .error e
  | .ok q =>
    match lookupFS fs q with
    | some e => .ok e
    | none => .error ()

/-- Models `std::fs::copy src dst`: reads through symlinks on the source
(errors unless it resolves to a regular file) and writes through
symlinks on the destination.  Per the source's own comment, the copy
preserves only the rwx permission bits; setuid/setgid/sticky bits
(the bits above 0o777) are not preserved. -/
def fsCopy (fs : FS) (src dst : Path) : Except Unit FS :=
  match fsMetadata fs src with
  | .ok (.file c m) =>
    match finalPath fs MAXSYMLINKS dst with
    | .error e => .error e
    | .ok q => .ok (setFS fs q (.file c (m &&& 0o777)))
  | _ => .error ()

/-- Models `std::fs::set_permissions`: follows symbolic links; errors
when the resolved path does not exist.  Setting permissions on a
directory leaves the model state unchanged (directory modes are not
tracked). -/
def fsSetPermissions (fs : FS) (p : Path) (m : Nat) : Except Unit FS :=
  match finalPath fs MAXSYMLINKS p with
  | .error e => .error e
  | .ok q =>
    match lookupFS fs q with
    | some (.file c _) => .ok (setFS fs q (.file c m))
    | some .dir => .ok fs
    | some (.symlink _) => .error ()
    | none => .error ()

/-- Models `std::fs::rename src dst`: moves the entry bound at `src`
itself (a symlink is moved, not followed) over `dst`, atomically
replacing anything bound there; errors when `src` is not bound. -/
def fsRename (fs : FS) (src dst : Path) : Except Unit FS :=
  match lookupFS fs src with
  | none => .error ()
  | some e => .ok (setFS (removeFS fs src) dst e)

/-- Models `std::fs::remove_file`: unlinks the entry itself (a symlink
is removed, not followed); errors when the path is not bound or is a
directory. -/
def fsRemoveFile (fs : FS) (p : Path) : Except Unit FS :=
  match lookupFS fs p with
  | some (.file _ _) => .ok (removeFS fs p)
  | some (.symlink _) => .ok (removeFS fs p)
  | some .dir => .error ()
  | none => .error ()

/-- Models `std::os::unix::fs::symlink src tgt`: creates the link, and
fails with EEXIST when anything (even a dangling symlink) is bound at
`tgt`. -/
def fsSymlink (fs : FS) (src tgt : Path) : Except Unit FS :=
  match lookupFS fs tgt with
  | none => .ok (setFS fs tgt (.symlink src))
  | some _ => .error ()

/-- Modelled from the spec: `Command` is a value type pairing an
executable name with an argument list (its definition lives in
`src/utils/mod.rs`, which is not part of the provided sources). -/
structure Command where
  command : String
  args : List String
deriving DecidableEq

/-- Modelled from the spec: `Command::build` packs an executable name
and its arguments. -/
def Command.build (exe : String) (args : List String) : Command :=
  ⟨exe, args⟩

/-- Modelled from the spec: a `Distribution` is an identifier/release
pair of strings (its definition lives in `src/utils/mod.rs`, which is
not part of the provided sources). -/
structure Distribution where
  id : String
  release : String
deriving DecidableEq

/-- The supported/known Linux distributions
(`SupportedLinuxDistribution` in `src/utils/worker.rs`). -/
inductive SupportedLinuxDistribution where
  | Ubuntu
  | AzureLinux
  | Fedora
  | ArchLinux
deriving DecidableEq

/-- Models `TryFrom<LinuxOSReleaseInfo> for SupportedLinuxDistribution`
(`src/utils/worker.rs`, lines 30-42): dispatch on the os-release `id`
string. -/
def tryFromOSRelease (id : String) : Except String SupportedLinuxDistribution :=
  match id with
  | "ubuntu" => .ok .Ubuntu
  | "azurelinux" => .ok .AzureLinux
  | "fedora" => .ok .Fedora
  | "arch" => .ok .ArchLinux
  | _ => .error ("Unsupported Linux distribution: " ++ id)

/-- Models `SupportedLinuxDistribution::gen_check_installed_command`
(`src/utils/worker.rs`, lines 69-81). -/
def gen_check_installed_command (d : SupportedLinuxDistribution) (package : String) : Command :=
  match d with
  | .Ubuntu => Command.build "dpkg-query" ["-s", package]
  | .AzureLinux => Command.build "dpkg-query" ["-s", package]
  | .Fedora => Command.build "rpm" ["-q", package]
  | .ArchLinux => Command.build "pacman" ["-Qi", package]

/-- The command issued by `Worker::install_package`
(`src/utils/worker.rs`, lines 144-148).  The default trait
implementation ignores the distribution (`&self`) and always builds an
apt-get command. -/
def install_package_cmd (_d : SupportedLinuxDistribution) (package : String) : Command :=
  Command.build "apt-get" ["install", "-y", package]

/-- The command issued by `Worker::remove_package`
(`src/utils/worker.rs`, lines 151-155).  The default trait
implementation ignores the distribution and always builds an apt-get
command. -/
def remove_package_cmd (_d : SupportedLinuxDistribution) (package : String) : Command :=
  Command.build "apt-get" ["remove", "-y", package]

/-- The command issued by `Worker::update_package_lists`
(`src/utils/worker.rs`, lines 158-162).  The default trait
implementation ignores the distribution and always builds an apt-get
command. -/
def update_package_lists_cmd (_d : SupportedLinuxDistribution) : Command :=
  Command.build "apt-get" ["update"]

/-- Models `Worker::check_installed` (`src/utils/worker.rs`, lines
165-171): run the distribution's check-installed command and map a
successful run to `Ok(true)` and a failing run to `Ok(false)`; the
function itself never returns an error. -/
def Worker.check_installed (runRes : Command → Option String) (d : SupportedLinuxDistribution)
    (package : String) : Except Unit Bool :=
  .ok (runRes (gen_check_installed_command d package)).isSome

/-- Models Rust's `str::trim`: drop whitespace from both ends (the
release and id strings the source trims are ASCII, where
`Char.isWhitespace` agrees with Rust's `char::is_whitespace`). -/
def rustTrim (s : String) : String :=
  ⟨((s.data.dropWhile Char.isWhitespace).reverse.dropWhile Char.isWhitespace).reverse⟩

/-- Models `Worker::distribution` (`src/utils/worker.rs`, lines 89-100):
run `lsb_release -is` and `lsb_release -rs` and trim both outputs; a
failing run makes the whole call fail (`none`). -/
def distribution_info (runRes : Command → Option String) : Option Distribution :=
  match runRes (Command.build "lsb_release" ["-is"]) with
  | none => none
  | some id =>
    match runRes (Command.build "lsb_release" ["-rs"]) with
    | none => none
    | some release => some ⟨rustTrim id, rustTrim release⟩

/-- Lexicographic order on character lists, mirroring Rust's derived
`Ord` for `String` (byte-wise comparison, which on code points agrees
with UTF-8 byte order).  `lexGe a b` is `a >= b`. -/
def lexGe : List Char → List Char → Bool
  | _, [] => true
  | [], _ :: _ => false
  | a :: as, b :: bs => if a = b then lexGe as bs else decide (b < a)

/-- Rust's `>=` on `String` values. -/
def strGe (a b : String) : Bool :=
  lexGe a.data b.data

/-- The experiment configuration (`UutilsExperiment` in
`src/experiments/uutils.rs`; the `system` field is factored out into
the `runRes`/`whichMap` oracles and the distribution value). -/
structure UutilsExperiment where
  name : String
  package : String
  first_supported_release : String
  unified_binary : Option Path
  bin_directory : Path

/-- Models `UutilsExperiment::check_compatible`
(`src/experiments/uutils.rs`, lines 37-43): compare the detected release
string with `first_supported_release` using `>=`.  The source calls
`.expect(..)` on the detection result, so a detection failure panics;
the panic is modelled as `none`. -/
def UutilsExperiment.check_compatible (e : UutilsExperiment)
    (runRes : Command → Option String) : Option Bool :=
  match distribution_info runRes with
  | none => none
  | some d => some (strGe d.release e.first_supported_release)

/-- Models `UutilsExperiment::check_installed`
(`src/experiments/uutils.rs`, lines 51-53): `unwrap_or(false)` on the
worker's result. -/
def UutilsExperiment.check_installed (e : UutilsExperiment)
    (runRes : Command → Option String) (d : SupportedLinuxDistribution) : Bool :=
  match Worker.check_installed runRes d e.package with
  | .ok b => b
  | .error _ => false

/-- Ghost events recording what the engine did, in order: a process
command issued, a file backed up, a file restored from its backup, and
a symlink created. -/
inductive Event where
  | cmd (c : Command)
  | backupEv (p : Path)
  | restoreEv (p : Path)
  | symlinkEv (src tgt : Path)
deriving DecidableEq

/-- Whether an event is a process command. -/
def isCmdEvent : Event → Bool
  | .cmd _ => true
  | _ => false

/-- Models `backup_filename` (`src/utils/worker.rs`, lines 255-262): the
backup of `/path/to/file` is the sibling `/path/to/.file.oxidizr.bak`. -/
def backup_filename (file : Path) : Path :=
  ⟨file.parent, "." ++ file.base ++ ".oxidizr.bak"⟩

/-- Models `Worker::backup_file` (`src/utils/worker.rs`, lines 191-202):
copy the file to its backup path, then explicitly re-apply the original
permission mode so that setuid/setgid/sticky bits survive the copy.
After a successful copy the source necessarily resolves to a regular
file, so the metadata match only needs the file arm. -/
def backup_file (fs : FS) (file : Path) : Except Unit (FS × List Event) :=
  let b := backup_filename file
  match fsCopy fs file b with
  | .error e => .error e
  | .ok fs1 =>
    match fsMetadata fs1 file with
    | .ok (.file _ m) =>
      match fsSetPermissions fs1 b m with
      | .error e => .error e
      | .ok fs2 => .ok (fs2, [.backupEv file])
    | _ => .error ()

/-- Models `Worker::restore_file` (`src/utils/worker.rs`, lines 206-217):
if the backup exists, rename it over the file; otherwise warn and
succeed without touching anything. -/
def restore_file (fs : FS) (file : Path) : Except Unit (FS × List Event) :=
  let b := backup_filename file
  match fsExists fs b with
  | .error e => .error e
  | .ok true =>
    match fsRename fs b file with
    | .error e => .error e
    | .ok fs1 => .ok (fs1, [.restoreEv file])
  | .ok false => .ok (fs, [])

/-- Models `remove_file_if_exists` (`src/utils/worker.rs`, lines
265-270). -/
def remove_file_if_exists (fs : FS) (file : Path) : Except Unit FS :=
  match fsExists fs file with
  | .error e => .error e
  | .ok true => fsRemoveFile fs file
  | .ok false => .ok fs

/-- Models `Worker::create_symlink` (`src/utils/worker.rs`, lines
221-226): remove the target if it exists, then create the link. -/
def create_symlink (fs : FS) (src tgt : Path) : Except Unit (FS × List Event) :=
  match remove_file_if_exists fs tgt with
  | .error e => .error e
  | .ok fs1 =>
    match fsSymlink fs1 src tgt with
    | .error e => .error e
    | .ok fs2 => .ok (fs2, [.symlinkEv src tgt])

/-- Models `Worker::replace_file_with_symlink` (`src/utils/worker.rs`,
lines 175-187): skip when the target is already a symlink; back up an
existing regular file and remove it; then create the symlink. -/
def replace_file_with_symlink (fs : FS) (src tgt : Path) : Except Unit (FS × List Event) :=
  match fsExists fs tgt with
  | .error e => .error e
  | .ok true =>
    if isSymlinkFS fs tgt then .ok (fs, [])
    else
      match backup_file fs tgt with
      | .error e => .error e
      | .ok (fs1, ev1) =>
        match fsRemoveFile fs1 tgt with
        | .error e => .error e
        | .ok fs2 =>
          match create_symlink fs2 src tgt with
          | .error e => .error e
          | .ok (fs3, ev2) => .ok (fs3, ev1 ++ ev2)
  | .ok false =>
    match create_symlink fs src tgt with
    | .error e => .error e
    | .ok (fs1, ev) => .ok (fs1, ev)

/-- Models `Worker::list_files` (`src/utils/worker.rs`, lines 120-136):
error unless the path exists and resolves to a directory, then list its
entries. -/
def list_files (fs : FS) (dir : Path) : Except Unit (List Path) :=
  match fsExists fs dir with
  | .error e => .error e
  | .ok false => .error ()
  | .ok true =>
    match finalPath fs MAXSYMLINKS dir with
    | .error e => .error e
    | .ok q =>
      match lookupFS fs q with
      | some .dir => .ok (childrenFS fs q)
      | _ => .error ()

/-- The per-candidate resolution of the "existing" system path used by
both `enable` and `disable` (`src/experiments/uutils.rs`, lines 69-72
and 91-94): prefer the PATH lookup of the candidate's basename, fall
back to `/usr/bin/<basename>`. -/
def resolve_existing (whichMap : String → Option Path) (filename : String) : Path :=
  match whichMap filename with
  | some p => p
  | none => ⟨["usr", "bin"], filename⟩

/-- The per-file loop of `UutilsExperiment::enable`
(`src/experiments/uutils.rs`, lines 67-80). -/
def enable_loop (whichMap : String → Option Path) (unified_binary : Option Path)
    (fs : FS) : List Path → Except Unit (FS × List Event)
  | [] => .ok (fs, [])
  | f :: rest =>
    let existing := resolve_existing whichMap f.base
    let src := match unified_binary with
      | some u => u
      | none => f
    match replace_file_with_symlink fs src existing with
    | .error e => .error e
    | .ok (fs1, ev1) =>
      match enable_loop whichMap unified_binary fs1 rest with
      | .error e => .error e
      | .ok (fs2, ev2) => .ok (fs2, ev1 ++ ev2)

/-- Models `UutilsExperiment::enable` (`src/experiments/uutils.rs`,
lines 61-83): install the package, list the candidate binaries, and
replace each resolved existing path with a symlink to the unified
binary, or to the candidate itself when there is none. -/
def enable (runRes : Command → Option String) (whichMap : String → Option Path)
    (d : SupportedLinuxDistribution) (e : UutilsExperiment) (fs : FS) :
    Except Unit (FS × List Event) :=
  let c := install_package_cmd d e.package
  match runRes c with
  | none => .error ()
  | some _ =>
    match list_files fs e.bin_directory with
    | .error er => .error er
    | .ok files =>
      match enable_loop whichMap e.unified_binary fs files with
      | .error er => .error er
      | .ok (fs1, ev) => .ok (fs1, Event.cmd c :: ev)

/-- The per-file loop of `UutilsExperiment::disable`
(`src/experiments/uutils.rs`, lines 89-96). -/
def disable_loop (whichMap : String → Option Path) (fs : FS) :
    List Path → Except Unit (FS × List Event)
  | [] => .ok (fs, [])
  | f :: rest =>
    let existing := resolve_existing whichMap f.base
    match restore_file fs existing with
    | .error e => .error e
    | .ok (fs1, ev1) =>
      match disable_loop whichMap fs1 rest with
      | .error e => .error e
      | .ok (fs2, ev2) => .ok (fs2, ev1 ++ ev2)

/-- Models `UutilsExperiment::disable` (`src/experiments/uutils.rs`,
lines 86-102): list the candidates, restore each resolved existing
path, then remove the package. -/
def disable (runRes : Command → Option String) (whichMap : String → Option Path)
    (d : SupportedLinuxDistribution) (e : UutilsExperiment) (fs : FS) :
    Except Unit (FS × List Event) :=
  match list_files fs e.bin_directory with
  | .error er => .error er
  | .ok files =>
    match disable_loop whichMap fs files with
    | .error er => .error er
    | .ok (fs1, ev) =>
      let c := remove_package_cmd d e.package
      match runRes c with
      | none => .error ()
      | some _ => .ok (fs1, ev ++ [Event.cmd c])

/-- An oracle for process execution that answers the two `lsb_release`
queries with the given id and release and fails every other command;
used to state the compatibility-gate claims. -/
def mkRunRes (id release : String) : Command → Option String :=
  fun c =>
    if c = Command.build "lsb_release" ["-is"] then some id
    else if c = Command.build "lsb_release" ["-rs"] then some release
    else none

/-! Concrete sample values used to instantiate the theorems below on
closed inputs. -/

/-- Sample path `/usr/bin/sudo`. -/
def sampleSudo : Path := ⟨["usr", "bin"], "sudo"⟩

/-- Sample filesystem holding one setuid binary (mode `0o4755`). -/
def sampleFsSudo : FS := [(sampleSudo, .file [7, 7] 0o4755)]

/-- Sample path `/usr/bin/coreutils` (a replacement binary). -/
def sampleCore : Path := ⟨["usr", "bin"], "coreutils"⟩

/-- Sample path `/usr/bin/date` (an existing system binary). -/
def sampleDate : Path := ⟨["usr", "bin"], "date"⟩

/-- Sample path `/usr/bin/sort` (an existing system binary). -/
def sampleSort : Path := ⟨["usr", "bin"], "sort"⟩

/-- Sample path `/usr/bin/ls`. -/
def sampleLs : Path := ⟨["usr", "bin"], "ls"⟩

/-- Sample filesystem where both the replacement binary and the target
exist as regular files. -/
def sampleFsPlain : FS := [(sampleDate, .file [1] 493), (sampleCore, .file [2] 493)]

/-- The filesystem produced by a first successful
`replace_file_with_symlink sampleFsPlain sampleCore sampleDate`. -/
def sampleFsSwapped : FS :=
  [(sampleDate, .symlink sampleCore),
   (⟨["usr", "bin"], ".date.oxidizr.bak"⟩, .file [1] 493),
   (sampleCore, .file [2] 493)]

/-- Sample filesystem where the target is already a symlink to a third
existing binary. -/
def sampleFsPre : FS := [(sampleDate, .symlink sampleLs), (sampleLs, .file [] 493)]

/-- An execution oracle under which every command fails. -/
def runNone : Command → Option String := fun _ => none

/-- An execution oracle under which every command succeeds with empty
output. -/
def runAll : Command → Option String := fun _ => some ""

/-- A PATH-lookup oracle that finds nothing (every candidate falls back
to `/usr/bin`). -/
def whichNone : String → Option Path := fun _ => none

/-- A PATH-lookup oracle that resolves every name to `/usr/bin/<name>`. -/
def whichUsr : String → Option Path := fun n => some ⟨["usr", "bin"], n⟩

/-- Sample candidate directory `/usr/lib/bins`. -/
def sampleBinDir : Path := ⟨["usr", "lib"], "bins"⟩

/-- Sample candidate file `/usr/lib/bins/date`. -/
def sampleCandDate : Path := ⟨["usr", "lib", "bins"], "date"⟩

/-- Sample candidate file `/usr/lib/bins/sort`. -/
def sampleCandSort : Path := ⟨["usr", "lib", "bins"], "sort"⟩

/-- Sample experiment without a unified binary. -/
def sampleExp : UutilsExperiment := ⟨"coreutils", "rust-coreutils", "24.04", none, sampleBinDir⟩

/-- Sample experiment with `/usr/bin/coreutils` as unified binary. -/
def sampleExpU : UutilsExperiment :=
  ⟨"coreutils", "rust-coreutils", "24.04", some sampleCore, sampleBinDir⟩

/-- Sample filesystem for the orchestrator runs: the candidate directory
with one candidate, and the corresponding system binary. -/
def sampleFsOrch : FS := [(sampleBinDir, .dir), (sampleCandDate, .file [3] 493)]

/-- The filesystem produced by `enable runAll whichNone .Ubuntu
sampleExp sampleFsOrch`. -/
def sampleFsEnabled : FS :=
  [(sampleDate, .symlink sampleCandDate), (sampleBinDir, .dir),
   (sampleCandDate, .file [3] 493)]

/-- Sample filesystem for the unified-binary run: two candidates and the
two existing system binaries they shadow. -/
def sampleFsU : FS :=
  [(sampleBinDir, .dir), (sampleCandDate, .file [1] 493), (sampleCandSort, .file [2] 493),
   (sampleDate, .file [4] 0o4755), (sampleSort, .file [5] 493)]

/-! Helper lemmas about the filesystem model. -/

theorem lookupFS_setFS_self (fs : FS) (p : Path) (e : FsEntry) :
    lookupFS (setFS fs p e) p = some e := by
  simp [setFS, lookupFS]

theorem lookupFS_removeFS (fs : FS) (p q : Path) :
    lookupFS (removeFS fs p) q = if q = p then none else lookupFS fs q := by
  induction fs with
  | nil => simp [removeFS, lookupFS]
  | cons a rest ih =>
    simp only [removeFS, List.filter_cons, ne_eq, decide_not] at ih ⊢
    by_cases hap : a.1 = p <;> by_cases hqp : q = p
    · subst hqp
      simp [hap, ih, lookupFS]
    · have hpq : p ≠ q := fun hh => hqp hh.symm
      simp [hap, hqp, ih, lookupFS, hpq]
    · subst hqp
      simp [hap, ih, lookupFS]
    · simp [hap, hqp, ih, lookupFS]

theorem lookupFS_removeFS_self (fs : FS) (p : Path) :
    lookupFS (removeFS fs p) p = none := by
  simp [lookupFS_removeFS]

theorem lookupFS_removeFS_other (fs : FS) (p q : Path) (h : q ≠ p) :
    lookupFS (removeFS fs p) q = lookupFS fs q := by
  simp [lookupFS_removeFS, h]

theorem lookupFS_setFS_other (fs : FS) (p q : Path) (e : FsEntry) (h : q ≠ p) :
    lookupFS (setFS fs p e) q = lookupFS fs q := by
  have hpq : p ≠ q := fun hh => h hh.symm
  simp [setFS, lookupFS, hpq, lookupFS_removeFS_other fs p q h]

theorem removeFS_of_lookup_none (fs : FS) (p : Path) (h : lookupFS fs p = none) :
    removeFS fs p = fs := by
  induction fs with
  | nil => rfl
  | cons a rest ih =>
    simp only [lookupFS] at h
    by_cases hap : a.1 = p
    · simp [hap] at h
    · simp [hap] at h
      simp [removeFS, List.filter_cons, hap] at ih ⊢
      exact ih h

theorem backup_filename_ne (p : Path) : backup_filename p ≠ p := by
  intro h
  have hbase : ("." ++ p.base ++ ".oxidizr.bak") = p.base := congrArg Path.base h
  have hlen := congrArg String.length hbase
  rw [String.length_append, String.length_append] at hlen
  have h1 : (".").length = 1 := rfl
  have h2 : (".oxidizr.bak").length = 12 := rfl
  rw [h1, h2] at hlen
  omega

theorem finalPath_max_of_file (fs : FS) (p : Path) (c : List Nat) (m : Nat)
    (h : lookupFS fs p = some (.file c m)) :
    finalPath fs MAXSYMLINKS p = .ok p := by
  show finalPath fs (Nat.succ 39) p = .ok p
  simp [finalPath, h]

theorem finalPath_max_of_none (fs : FS) (p : Path)
    (h : lookupFS fs p = none) :
    finalPath fs MAXSYMLINKS p = .ok p := by
  show finalPath fs (Nat.succ 39) p = .ok p
  simp [finalPath, h]

theorem finalPath_max_of_dir (fs : FS) (p : Path)
    (h : lookupFS fs p = some .dir) :
    finalPath fs MAXSYMLINKS p = .ok p := by
  show finalPath fs (Nat.succ 39) p = .ok p
  simp [finalPath, h]

theorem fsExists_of_file (fs : FS) (p : Path) (c : List Nat) (m : Nat)
    (h : lookupFS fs p = some (.file c m)) :
    fsExists fs p = .ok true := by
  simp [fsExists, finalPath_max_of_file fs p c m h, h]

theorem fsExists_of_none (fs : FS) (p : Path)
    (h : lookupFS fs p = none) :
    fsExists fs p = .ok false := by
  simp [fsExists, finalPath_max_of_none fs p h, h]

theorem fsExists_of_dir (fs : FS) (p : Path)
    (h : lookupFS fs p = some .dir) :
    fsExists fs p = .ok true := by
  simp [fsExists, finalPath_max_of_dir fs p h, h]

/-! Step lemmas about the file swap engine. -/

theorem backup_file_plain (fs : FS) (f : Path) (c : List Nat) (m : Nat)
    (hf : lookupFS fs f = some (.file c m))
    (hbak : lookupFS fs (backup_filename f) = none) :
    backup_file fs f =
      .ok (setFS (setFS fs (backup_filename f) (.file c (m &&& 0o777)))
            (backup_filename f) (.file c m), [.backupEv f]) := by
  have hne : backup_filename f ≠ f := backup_filename_ne f
  have hfe : f ≠ backup_filename f := fun hh => hne hh.symm
  have hmeta : fsMetadata fs f = .ok (.file c m) := by
    simp [fsMetadata, finalPath_max_of_file fs f c m hf, hf]
  have hfpb : finalPath fs MAXSYMLINKS (backup_filename f) = .ok (backup_filename f) :=
    finalPath_max_of_none fs _ hbak
  have hcopy : fsCopy fs f (backup_filename f) =
      .ok (setFS fs (backup_filename f) (.file c (m &&& 0o777))) := by
    simp [fsCopy, hmeta, hfpb]
  have hl1 : lookupFS (setFS fs (backup_filename f) (.file c (m &&& 0o777))) f
      = some (.file c m) := by
    rw [lookupFS_setFS_other _ _ _ _ hfe]; exact hf
  have hmeta1 : fsMetadata (setFS fs (backup_filename f) (.file c (m &&& 0o777))) f
      = .ok (.file c m) := by
    simp [fsMetadata, finalPath_max_of_file _ f c m hl1, hl1]
  have hl2 : lookupFS (setFS fs (backup_filename f) (.file c (m &&& 0o777))) (backup_filename f)
      = some (.file c (m &&& 0o777)) := lookupFS_setFS_self _ _ _
  have hperm : fsSetPermissions (setFS fs (backup_filename f) (.file c (m &&& 0o777)))
      (backup_filename f) m
      = .ok (setFS (setFS fs (backup_filename f) (.file c (m &&& 0o777)))
          (backup_filename f) (.file c m)) := by
    simp [fsSetPermissions, finalPath_max_of_file _ _ _ _ hl2, hl2]
  simp [backup_file, hcopy, hmeta1, hperm]

theorem replace_plain_step (fs : FS) (src tgt : Path) (c : List Nat) (m : Nat)
    (htgt : lookupFS fs tgt = some (.file c m))
    (hbak : lookupFS fs (backup_filename tgt) = none) :
    replace_file_with_symlink fs src tgt =
      .ok (setFS (removeFS (setFS (setFS fs (backup_filename tgt) (.file c (m &&& 0o777)))
              (backup_filename tgt) (.file c m)) tgt) tgt (.symlink src),
           [.backupEv tgt, .symlinkEv src tgt]) := by
  have hne : backup_filename tgt ≠ tgt := backup_filename_ne tgt
  have htne : tgt ≠ backup_filename tgt := fun hh => hne hh.symm
  have hex : fsExists fs tgt = .ok true := fsExists_of_file fs tgt c m htgt
  have hsym : isSymlinkFS fs tgt = false := by simp [isSymlinkFS, htgt]
  have hbf := backup_file_plain fs tgt c m htgt hbak
  have hl2 : lookupFS (setFS (setFS fs (backup_filename tgt) (.file c (m &&& 0o777)))
      (backup_filename tgt) (.file c m)) tgt = some (.file c m) := by
    rw [lookupFS_setFS_other _ _ _ _ htne, lookupFS_setFS_other _ _ _ _ htne]; exact htgt
  have hrm : fsRemoveFile (setFS (setFS fs (backup_filename tgt) (.file c (m &&& 0o777)))
      (backup_filename tgt) (.file c m)) tgt
      = .ok (removeFS (setFS (setFS fs (backup_filename tgt) (.file c (m &&& 0o777)))
          (backup_filename tgt) (.file c m)) tgt) := by
    simp [fsRemoveFile, hl2]
  have hl3 : lookupFS (removeFS (setFS (setFS fs (backup_filename tgt) (.file c (m &&& 0o777)))
      (backup_filename tgt) (.file c m)) tgt) tgt = none := lookupFS_removeFS_self _ _
  have hex3 : fsExists (removeFS (setFS (setFS fs (backup_filename tgt) (.file c (m &&& 0o777)))
      (backup_filename tgt) (.file c m)) tgt) tgt = .ok false := fsExists_of_none _ _ hl3
  have hcs : create_symlink (removeFS (setFS (setFS fs (backup_filename tgt)
      (.file c (m &&& 0o777))) (backup_filename tgt) (.file c m)) tgt) src tgt
      = .ok (setFS (removeFS (setFS (setFS fs (backup_filename tgt) (.file c (m &&& 0o777)))
          (backup_filename tgt) (.file c m)) tgt) tgt (.symlink src),
          [.symlinkEv src tgt]) := by
    simp [create_symlink, remove_file_if_exists, hex3, fsSymlink, hl3]
  simp [replace_file_with_symlink, hex, hsym, hbf, hrm, hcs]

theorem lookup_after_replace (fs : FS) (src tgt x : Path) (c : List Nat) (m : Nat) :
    lookupFS (setFS (removeFS (setFS (setFS fs (backup_filename tgt) (.file c (m &&& 0o777)))
        (backup_filename tgt) (.file c m)) tgt) tgt (.symlink src)) x =
      if x = tgt then some (.symlink src)
      else if x = backup_filename tgt then some (.file c m)
      else lookupFS fs x := by
  by_cases hxt : x = tgt
  · subst hxt; simp [lookupFS_setFS_self]
  · rw [lookupFS_setFS_other _ _ _ _ hxt, lookupFS_removeFS_other _ _ _ hxt]
    by_cases hxb : x = backup_filename tgt
    · subst hxb; simp [lookupFS_setFS_self, hxt]
    · rw [lookupFS_setFS_other _ _ _ _ hxb, lookupFS_setFS_other _ _ _ _ hxb]
      simp [hxt, hxb]

theorem isSymlinkFS_true (fs : FS) (p : Path) (h : isSymlinkFS fs p = true) :
    ∃ d, lookupFS fs p = some (.symlink d) := by
  unfold isSymlinkFS at h
  split at h
  · next d heq => exact ⟨d, heq⟩
  · simp at h

theorem create_symlink_ok (fs fs1 : FS) (s t : Path) (ev : List Event)
    (h : create_symlink fs s t = .ok (fs1, ev)) :
    lookupFS fs1 t = some (.symlink s) ∧ ev = [.symlinkEv s t] := by
  unfold create_symlink at h
  split at h
  · simp at h
  · next fsa heq =>
    split at h
    · simp at h
    · next fs2 heq2 =>
      simp only [Except.ok.injEq, Prod.mk.injEq] at h
      obtain ⟨h1, h2⟩ := h
      subst h1
      unfold fsSymlink at heq2
      split at heq2
      · next hnone =>
        simp only [Except.ok.injEq] at heq2
        subst heq2
        exact ⟨lookupFS_setFS_self _ _ _, h2.symm⟩
      · simp at heq2

theorem backup_file_ok_events (fs fs1 : FS) (f : Path) (ev : List Event)
    (h : backup_file fs f = .ok (fs1, ev)) : ev = [.backupEv f] := by
  unfold backup_file at h
  dsimp only at h
  split at h
  · simp at h
  · split at h
    · split at h
      · simp at h
      · simp only [Except.ok.injEq, Prod.mk.injEq] at h
        exact h.2.symm
    · simp at h

theorem restore_file_ok_events (fs fs1 : FS) (f : Path) (ev : List Event)
    (h : restore_file fs f = .ok (fs1, ev)) : ev = [] ∨ ev = [.restoreEv f] := by
  unfold restore_file at h
  dsimp only at h
  split at h
  · simp at h
  · split at h
    · simp at h
    · simp only [Except.ok.injEq, Prod.mk.injEq] at h
      exact Or.inr h.2.symm
  · simp only [Except.ok.injEq, Prod.mk.injEq] at h
    exact Or.inl h.2.symm

theorem replace_ok_symlink (fs fs1 : FS) (s t : Path) (ev : List Event)
    (h : replace_file_with_symlink fs s t = .ok (fs1, ev)) :
    ∃ d, lookupFS fs1 t = some (.symlink d) ∧
      (d = s ∨ (fs1 = fs ∧ lookupFS fs t = some (.symlink d))) := by
  unfold replace_file_with_symlink at h
  split at h
  · simp at h
  · split at h
    · next hsym =>
      simp only [Except.ok.injEq, Prod.mk.injEq] at h
      obtain ⟨h1, _⟩ := h
      subst h1
      obtain ⟨d, hd⟩ := isSymlinkFS_true fs t hsym
      exact ⟨d, hd, Or.inr ⟨rfl, hd⟩⟩
    · split at h
      · simp at h
      · split at h
        · simp at h
        · split at h
          · simp at h
          · next fs3 ev2 heq3 =>
            simp only [Except.ok.injEq, Prod.mk.injEq] at h
            obtain ⟨h1, _⟩ := h
            subst h1
            exact ⟨s, (create_symlink_ok _ _ _ _ _ heq3).1, Or.inl rfl⟩
  · split at h
    · simp at h
    · next fsa eva heq =>
      simp only [Except.ok.injEq, Prod.mk.injEq] at h
      obtain ⟨h1, _⟩ := h
      subst h1
      exact ⟨s, (create_symlink_ok _ _ _ _ _ heq).1, Or.inl rfl⟩

theorem replace_ok_no_cmd (fs fs1 : FS) (s t : Path) (ev : List Event)
    (h : replace_file_with_symlink fs s t = .ok (fs1, ev)) :
    List.filter isCmdEvent ev = [] := by
  unfold replace_file_with_symlink at h
  split at h
  · simp at h
  · split at h
    · simp only [Except.ok.injEq, Prod.mk.injEq] at h
      rw [← h.2]
      rfl
    · split at h
      · simp at h
      · next fsa eva heqb =>
        split at h
        · simp at h
        · split at h
          · simp at h
          · next fs3 ev2 heq3 =>
            simp only [Except.ok.injEq, Prod.mk.injEq] at h
            rw [← h.2, backup_file_ok_events _ _ _ _ heqb,
              (create_symlink_ok _ _ _ _ _ heq3).2]
            rfl
  · split at h
    · simp at h
    · next fsa eva heq =>
      simp only [Except.ok.injEq, Prod.mk.injEq] at h
      rw [← h.2, (create_symlink_ok _ _ _ _ _ heq).2]
      rfl

theorem restore_ok_no_cmd (fs fs1 : FS) (f : Path) (ev : List Event)
    (h : restore_file fs f = .ok (fs1, ev)) :
    List.filter isCmdEvent ev = [] := by
  rcases restore_file_ok_events fs fs1 f ev h with h2 | h2 <;> rw [h2] <;> rfl

theorem enable_loop_no_cmd (W : String → Option Path) (unified : Option Path)
    (files : List Path) : ∀ (fs fs1 : FS) (ev : List Event),
    enable_loop W unified fs files = .ok (fs1, ev) → List.filter isCmdEvent ev = [] := by
  induction files with
  | nil =>
    intro fs fs1 ev h
    simp only [enable_loop, Except.ok.injEq, Prod.mk.injEq] at h
    rw [← h.2]
    rfl
  | cons f rest ih =>
    intro fs fs1 ev h
    unfold enable_loop at h
    dsimp only at h
    split at h
    · simp at h
    · next fsa eva hrep =>
      split at h
      · simp at h
      · next fsb evb hloop =>
        simp only [Except.ok.injEq, Prod.mk.injEq] at h
        rw [← h.2, List.filter_append, replace_ok_no_cmd _ _ _ _ _ hrep,
          ih fsa fsb evb hloop]
        rfl

theorem disable_loop_no_cmd (W : String → Option Path)
    (files : List Path) : ∀ (fs fs1 : FS) (ev : List Event),
    disable_loop W fs files = .ok (fs1, ev) → List.filter isCmdEvent ev = [] := by
  induction files with
  | nil =>
    intro fs fs1 ev h
    simp only [disable_loop, Except.ok.injEq, Prod.mk.injEq] at h
    rw [← h.2]
    rfl
  | cons f rest ih =>
    intro fs fs1 ev h
    unfold disable_loop at h
    dsimp only at h
    split at h
    · simp at h
    · next fsa eva hres =>
      split at h
      · simp at h
      · next fsb evb hloop =>
        simp only [Except.ok.injEq, Prod.mk.injEq] at h
        rw [← h.2, List.filter_append, restore_ok_no_cmd _ _ _ _ hres,
          ih fsa fsb evb hloop]
        rfl

theorem fsRemoveFile_file (fs : FS) (p : Path) (c : List Nat) (m : Nat)
    (h : lookupFS fs p = some (.file c m)) :
    fsRemoveFile fs p = .ok (removeFS fs p) := by
  simp [fsRemoveFile, h]

theorem restore_plain_step (fs : FS) (f : Path) (c : List Nat) (m : Nat)
    (hbak : lookupFS fs (backup_filename f) = some (.file c m)) :
    restore_file fs f
      = .ok (setFS (removeFS fs (backup_filename f)) f (.file c m), [.restoreEv f]) := by
  have hex := fsExists_of_file fs _ c m hbak
  simp [restore_file, hex, fsRename, hbak]

/-! The claims. -/

/-- C1: for every file `F` that exists with content `C` and permission
mode `m` (setuid/setgid/sticky bits included) and no pre-existing
backup, `backup_file F`, then deleting `F`, then `restore_file F` yields
a file at `F` with content `C` and mode `m`, and the backup path
`.<basename>.oxidizr.bak` no longer exists afterwards. -/
theorem c1_backup_restore_round_trip (fs : FS) (F : Path) (C : List Nat) (m : Nat)
    (hF : lookupFS fs F = some (.file C m))
    (hbak : lookupFS fs (backup_filename F) = none) :
    ∃ fs1 ev1, backup_file fs F = .ok (fs1, ev1) ∧
      ∃ fs2, fsRemoveFile fs1 F = .ok fs2 ∧
        ∃ fs3 ev3, restore_file fs2 F = .ok (fs3, ev3) ∧
          lookupFS fs3 F = some (.file C m) ∧
          lookupFS fs3 (backup_filename F) = none := by
  have hne : backup_filename F ≠ F := backup_filename_ne F
  have hFb : F ≠ backup_filename F := fun hh => hne hh.symm
  have hbf := backup_file_plain fs F C m hF hbak
  have h1 : lookupFS (setFS (setFS fs (backup_filename F) (.file C (m &&& 0o777)))
      (backup_filename F) (.file C m)) F = some (.file C m) := by
    rw [lookupFS_setFS_other _ _ _ _ hFb, lookupFS_setFS_other _ _ _ _ hFb]
    exact hF
  have h2 : lookupFS (removeFS (setFS (setFS fs (backup_filename F) (.file C (m &&& 0o777)))
      (backup_filename F) (.file C m)) F) (backup_filename F) = some (.file C m) := by
    rw [lookupFS_removeFS_other _ _ _ hne, lookupFS_setFS_self]
  exact ⟨_, _, hbf, _, fsRemoveFile_file _ _ _ _ h1, _, _, restore_plain_step _ _ _ _ h2,
    lookupFS_setFS_self _ _ _,
    by rw [lookupFS_setFS_other _ _ _ _ hne, lookupFS_removeFS_self]⟩

/-- Witness for C1: the round trip on a concrete setuid binary
`/usr/bin/sudo` with mode `0o4755`. -/
theorem c1_witness :
    lookupFS sampleFsSudo sampleSudo = some (.file [7, 7] 0o4755) ∧
    lookupFS sampleFsSudo (backup_filename sampleSudo) = none ∧
    (∃ fs1 ev1, backup_file sampleFsSudo sampleSudo = .ok (fs1, ev1) ∧
      ∃ fs2, fsRemoveFile fs1 sampleSudo = .ok fs2 ∧
        ∃ fs3 ev3, restore_file fs2 sampleSudo = .ok (fs3, ev3) ∧
          lookupFS fs3 sampleSudo = some (.file [7, 7] 0o4755) ∧
          lookupFS fs3 (backup_filename sampleSudo) = none) :=
  ⟨by decide, by decide,
    c1_backup_restore_round_trip sampleFsSudo sampleSudo [7, 7] 0o4755 (by decide) (by decide)⟩

/-- Counterexample to C2 as stated: with `source` and `target` both
absent, the first call succeeds and leaves a dangling symlink at
`target`; the second call is not a no-op success — it fails, because
`fs::exists` follows the dangling link (reporting `false`) and the
subsequent `symlink` call hits EEXIST. -/
theorem c2_counterexample :
    replace_file_with_symlink [] sampleCore sampleDate
      = .ok ([(sampleDate, .symlink sampleCore)], [.symlinkEv sampleCore sampleDate]) ∧
    replace_file_with_symlink [(sampleDate, .symlink sampleCore)] sampleCore sampleDate
      = .error () := by
  decide

/-- C2 (amended): if a call to `replace_file_with_symlink` succeeds and
the symlink it leaves at `target` resolves to an existing file (which
holds in particular whenever `source` exists), then the second call is
a no-op success: it returns the same filesystem, performs no backup and
raises no error.  (As stated the claim fails when the symlink is
dangling: see the counterexample.) -/
theorem c2_idempotent (fs fs1 : FS) (s t : Path) (ev : List Event)
    (h1 : replace_file_with_symlink fs s t = .ok (fs1, ev))
    (h2 : fsExists fs1 t = .ok true) :
    replace_file_with_symlink fs1 s t = .ok (fs1, []) := by
  obtain ⟨d, hd, _⟩ := replace_ok_symlink fs fs1 s t ev h1
  have hsym : isSymlinkFS fs1 t = true := by simp [isSymlinkFS, hd]
  unfold replace_file_with_symlink
  rw [h2]
  simp [hsym]

/-- Witness for C2 (amended): a concrete second call that is a no-op
success once `/usr/bin/date` has been swapped for a symlink to the
existing `/usr/bin/coreutils`. -/
theorem c2_witness :
    replace_file_with_symlink sampleFsSwapped sampleCore sampleDate
      = .ok (sampleFsSwapped, []) :=
  c2_idempotent sampleFsPlain sampleFsSwapped sampleCore sampleDate
    [.backupEv sampleDate, .symlinkEv sampleCore sampleDate] (by decide) (by decide)

/-- Counterexample to C3 as stated: when `target` already is a symlink
to a third path (here `/usr/bin/ls`), the call returns success but the
target still points to that third path, not to `source`. -/
theorem c3_counterexample :
    replace_file_with_symlink sampleFsPre sampleCore sampleDate = .ok (sampleFsPre, []) ∧
    lookupFS sampleFsPre sampleDate = some (.symlink sampleLs) ∧
    decide (sampleLs = sampleCore) = false := by
  decide

/-- C3 (amended): whenever `replace_file_with_symlink source target`
returns success, `target` is afterwards a symlink; it points to
`source` unless `target` was already a symlink before the call, in
which case the call is a no-op and the previous link destination is
retained. -/
theorem c3_success_postcondition (fs fs1 : FS) (s t : Path) (ev : List Event)
    (h : replace_file_with_symlink fs s t = .ok (fs1, ev)) :
    ∃ d, lookupFS fs1 t = some (.symlink d) ∧
      (d = s ∨ (fs1 = fs ∧ lookupFS fs t = some (.symlink d))) :=
  replace_ok_symlink fs fs1 s t ev h

/-- Witness for C3 (amended): the no-op branch on the concrete
pre-linked filesystem. -/
theorem c3_witness :
    ∃ d, lookupFS sampleFsPre sampleDate = some (.symlink d) ∧
      (d = sampleCore ∨ (sampleFsPre = sampleFsPre ∧
        lookupFS sampleFsPre sampleDate = some (.symlink d))) :=
  c3_success_postcondition sampleFsPre sampleFsPre sampleCore sampleDate [] (by decide)

/-- C4: `restore_file F` when no backup exists for `F` returns success
and leaves the whole filesystem — in particular `F` — unmodified. -/
theorem c4_missing_backup_tolerance (fs : FS) (F : Path)
    (hbak : lookupFS fs (backup_filename F) = none) :
    restore_file fs F = .ok (fs, []) := by
  simp [restore_file, fsExists_of_none fs _ hbak]

/-- Witness for C4: restoring `/usr/bin/date`, which has no backup, on
a concrete filesystem succeeds and changes nothing. -/
theorem c4_witness :
    lookupFS sampleFsSudo (backup_filename sampleDate) = none ∧
    restore_file sampleFsSudo sampleDate = .ok (sampleFsSudo, []) :=
  ⟨by decide, c4_missing_backup_tolerance sampleFsSudo sampleDate (by decide)⟩

/-- Counterexample to C5 as stated: under an oracle where the
`lsb_release` commands fail, `check_compatible` does not resolve to a
boolean default — the source calls `.expect(..)` on the detection
result, i.e. it panics (modelled by `none`). -/
theorem c5_counterexample :
    sampleExp.check_compatible runNone = none := by
  decide

/-- C5 (amended): `check_installed` never propagates an error — both
the worker function and the experiment wrapper resolve a command
failure to the boolean `false`.  The compatibility check, however, does
not resolve a detection failure to a boolean default: when the
distribution cannot be determined, `check_compatible` panics (modelled
by `none`) instead of returning a boolean. -/
theorem c5_error_resolution (runRes : Command → Option String)
    (d : SupportedLinuxDistribution) (e : UutilsExperiment) :
    Worker.check_installed runRes d e.package
      = .ok (runRes (gen_check_installed_command d e.package)).isSome ∧
    e.check_installed runRes d
      = (runRes (gen_check_installed_command d e.package)).isSome ∧
    (distribution_info runRes = none → e.check_compatible runRes = none) := by
  refine ⟨rfl, rfl, ?_⟩
  intro h
  simp [UutilsExperiment.check_compatible, h]

/-- Witness for C5 (amended): the failing oracle cannot detect the
distribution, and the compatibility check then panics, while the
installed check resolves to `false`. -/
theorem c5_witness :
    distribution_info runNone = none ∧
    sampleExp.check_installed runNone .Ubuntu = false ∧
    sampleExp.check_compatible runNone = none :=
  ⟨by decide, (c5_error_resolution runNone .Ubuntu sampleExp).2.1,
    (c5_error_resolution runNone .Ubuntu sampleExp).2.2 (by decide)⟩

/-- C6: the compatibility gate compares the detected release string
against `first_supported_release` lexicographically with `>=` (string
comparison, not semantic versioning): with `first_supported_release =
"24.04"`, release `"20.04"` is incompatible, while `"24.04"`, `"24.10"`
and even `"9.10"` are compatible. -/
theorem c6_compatibility_gate :
    (∀ (id release : String) (e : UutilsExperiment),
      e.check_compatible (mkRunRes id release)
        = some (strGe (rustTrim release) e.first_supported_release)) ∧
    sampleExp.check_compatible (mkRunRes "Ubuntu" "20.04") = some false ∧
    sampleExp.check_compatible (mkRunRes "Ubuntu" "24.04") = some true ∧
    sampleExp.check_compatible (mkRunRes "Ubuntu" "24.10") = some true ∧
    sampleExp.check_compatible (mkRunRes "Ubuntu" "9.10") = some true :=
  ⟨fun _ _ _ => rfl, by decide, by decide, by decide, by decide⟩

/-- Counterexample to C7 as stated: for Fedora the install command is
the fixed apt-get template, not a dnf command; likewise remove and
update for the other distributions. -/
theorem c7_counterexample :
    install_package_cmd .Fedora "rust-coreutils"
      = Command.build "apt-get" ["install", "-y", "rust-coreutils"] ∧
    decide (install_package_cmd .Fedora "rust-coreutils"
      = Command.build "dnf" ["install", "-y", "rust-coreutils"]) = false ∧
    remove_package_cmd .ArchLinux "rust-coreutils"
      = Command.build "apt-get" ["remove", "-y", "rust-coreutils"] ∧
    update_package_lists_cmd .AzureLinux = Command.build "apt-get" ["update"] := by
  decide

/-- C7 (amended): only the check-installed command is selected per
distribution (dpkg-query for Ubuntu and Azure Linux, rpm for Fedora,
pacman for Arch); the install, remove and update-index operations all
run the same fixed apt-get command set for every distribution. -/
theorem c7_package_manager_commands (d : SupportedLinuxDistribution) (pkg : String) :
    install_package_cmd d pkg = Command.build "apt-get" ["install", "-y", pkg] ∧
    remove_package_cmd d pkg = Command.build "apt-get" ["remove", "-y", pkg] ∧
    update_package_lists_cmd d = Command.build "apt-get" ["update"] ∧
    gen_check_installed_command .Ubuntu pkg = Command.build "dpkg-query" ["-s", pkg] ∧
    gen_check_installed_command .AzureLinux pkg = Command.build "dpkg-query" ["-s", pkg] ∧
    gen_check_installed_command .Fedora pkg = Command.build "rpm" ["-q", pkg] ∧
    gen_check_installed_command .ArchLinux pkg = Command.build "pacman" ["-Qi", pkg] :=
  ⟨rfl, rfl, rfl, rfl, rfl, rfl, rfl⟩

/-- Counterexample to C8 as stated: an unrecognized distribution id
produces an error, not an `Unknown` value (the enumeration has no such
variant). -/
theorem c8_counterexample :
    tryFromOSRelease "debian" = .error "Unsupported Linux distribution: debian" := by
  decide

/-- C8 (amended): the distribution mapping is partial, not total: the
four recognized ids map to their variants, and every other id fails
with an `Unsupported Linux distribution` error — there is no `Unknown`
kind. -/
theorem c8_distribution_mapping :
    tryFromOSRelease "ubuntu" = .ok .Ubuntu ∧
    tryFromOSRelease "azurelinux" = .ok .AzureLinux ∧
    tryFromOSRelease "fedora" = .ok .Fedora ∧
    tryFromOSRelease "arch" = .ok .ArchLinux ∧
    ∀ id : String, id ∉ ["ubuntu", "azurelinux", "fedora", "arch"] →
      tryFromOSRelease id = .error ("Unsupported Linux distribution: " ++ id) := by
  refine ⟨by decide, by decide, by decide, by decide, ?_⟩
  intro id hid
  simp only [List.mem_cons, List.not_mem_nil, or_false, not_or] at hid
  unfold tryFromOSRelease
  split
  · simp at hid
  · simp at hid
  · simp at hid
  · simp at hid
  · rfl

/-- Witness for C8 (amended): the unrecognized id `"debian"` fails. -/
theorem c8_witness :
    ("debian" : String) ∉ ["ubuntu", "azurelinux", "fedora", "arch"] ∧
    tryFromOSRelease "debian" = .error ("Unsupported Linux distribution: " ++ "debian") :=
  ⟨by decide, c8_distribution_mapping.2.2.2.2 "debian" (by decide)⟩

/-- C9: in every successful run, `enable` issues exactly one package
command — the install command — and issues it before any file backup,
restore or symlink event (it is the first event of the trace), and
`disable` issues exactly one package command — the remove command — and
issues it after all per-file restore attempts (it is the last event of
the trace). -/
theorem c9_package_lifecycle (runRes : Command → Option String)
    (whichMap : String → Option Path) (d : SupportedLinuxDistribution)
    (e : UutilsExperiment) (fs fs1 fs2 : FS) (tr1 tr2 : List Event) :
    (enable runRes whichMap d e fs = .ok (fs1, tr1) →
      List.filter isCmdEvent tr1 = [Event.cmd (install_package_cmd d e.package)] ∧
      ∃ rest, tr1 = Event.cmd (install_package_cmd d e.package) :: rest ∧
        List.filter isCmdEvent rest = []) ∧
    (disable runRes whichMap d e fs = .ok (fs2, tr2) →
      List.filter isCmdEvent tr2 = [Event.cmd (remove_package_cmd d e.package)] ∧
      ∃ pre, tr2 = pre ++ [Event.cmd (remove_package_cmd d e.package)] ∧
        List.filter isCmdEvent pre = []) := by
  constructor
  · intro h
    unfold enable at h
    dsimp only at h
    split at h
    · simp at h
    · split at h
      · simp at h
      · next files hfiles =>
        split at h
        · simp at h
        · next fsb evb hloop =>
          simp only [Except.ok.injEq, Prod.mk.injEq] at h
          have hnc := enable_loop_no_cmd whichMap e.unified_binary files fs fsb evb hloop
          refine ⟨?_, evb, h.2.symm, hnc⟩
          rw [← h.2]
          simp [List.filter_cons, isCmdEvent, hnc]
  · intro h
    unfold disable at h
    dsimp only at h
    split at h
    · simp at h
    · next files hfiles =>
      split at h
      · simp at h
      · next fsb evb hloop =>
        split at h
        · simp at h
        · simp only [Except.ok.injEq, Prod.mk.injEq] at h
          have hnc := disable_loop_no_cmd whichMap files fs fsb evb hloop
          refine ⟨?_, evb, h.2.symm, hnc⟩
          rw [← h.2]
          simp [List.filter_append, List.filter_cons, isCmdEvent, hnc]

/-- Witness for C9: a concrete successful `enable` and `disable` run
whose traces consist of the install command followed by the symlink
event, and of the remove command alone. -/
theorem c9_witness :
    (List.filter isCmdEvent
        [Event.cmd (install_package_cmd .Ubuntu sampleExp.package),
         Event.symlinkEv sampleCandDate sampleDate]
      = [Event.cmd (install_package_cmd .Ubuntu sampleExp.package)] ∧
      ∃ rest,
        [Event.cmd (install_package_cmd .Ubuntu sampleExp.package),
         Event.symlinkEv sampleCandDate sampleDate]
          = Event.cmd (install_package_cmd .Ubuntu sampleExp.package) :: rest ∧
        List.filter isCmdEvent rest = []) ∧
    (List.filter isCmdEvent [Event.cmd (remove_package_cmd .Ubuntu sampleExp.package)]
      = [Event.cmd (remove_package_cmd .Ubuntu sampleExp.package)] ∧
      ∃ pre,
        [Event.cmd (remove_package_cmd .Ubuntu sampleExp.package)]
          = pre ++ [Event.cmd (remove_package_cmd .Ubuntu sampleExp.package)] ∧
        List.filter isCmdEvent pre = []) :=
  ⟨(c9_package_lifecycle runAll whichNone .Ubuntu sampleExp sampleFsOrch sampleFsEnabled
      sampleFsOrch
      [Event.cmd (install_package_cmd .Ubuntu sampleExp.package),
       Event.symlinkEv sampleCandDate sampleDate]
      [Event.cmd (remove_package_cmd .Ubuntu sampleExp.package)]).1 (by decide),
   (c9_package_lifecycle runAll whichNone .Ubuntu sampleExp sampleFsOrch sampleFsEnabled
      sampleFsOrch
      [Event.cmd (install_package_cmd .Ubuntu sampleExp.package),
       Event.symlinkEv sampleCandDate sampleDate]
      [Event.cmd (remove_package_cmd .Ubuntu sampleExp.package)]).2 (by decide)⟩

/-- C10: for an experiment with `unified_binary = some U` and candidate
files A and B under `bin_directory`, a successful `enable` creates the
symlinks at the resolved existing system paths `existing(A)` and
`existing(B)` (PATH lookup of the candidate's basename with fallback
`/usr/bin/<basename>`), both pointing to U — and not at the candidate
paths A and B themselves, which are left unmodified. -/
theorem c10_unified_binary_fan_in
    (runRes : Command → Option String) (whichMap : String → Option Path)
    (d : SupportedLinuxDistribution) (name pkg fsr : String)
    (U binDir A B eA eB : Path) (fs : FS)
    (cA cB : List Nat) (mA mB : Nat)
    (hrun : (runRes (install_package_cmd d pkg)).isSome = true)
    (hdir : lookupFS fs binDir = some .dir)
    (hkids : childrenFS fs binDir = [A, B])
    (heA : resolve_existing whichMap A.base = eA)
    (heB : resolve_existing whichMap B.base = eB)
    (hA : lookupFS fs eA = some (.file cA mA))
    (hB : lookupFS fs eB = some (.file cB mB))
    (hbA : lookupFS fs (backup_filename eA) = none)
    (hbB : lookupFS fs (backup_filename eB) = none)
    (hdistinct : List.Pairwise (fun x y => x ≠ y)
      [A, B, eA, eB, backup_filename eA, backup_filename eB]) :
    ∃ fs1 tr,
      enable runRes whichMap d ⟨name, pkg, fsr, some U, binDir⟩ fs = .ok (fs1, tr) ∧
      lookupFS fs1 eA = some (.symlink U) ∧
      lookupFS fs1 eB = some (.symlink U) ∧
      lookupFS fs1 A = lookupFS fs A ∧
      lookupFS fs1 B = lookupFS fs B := by
  simp only [List.pairwise_cons, List.mem_cons, List.not_mem_nil, List.mem_singleton,
    forall_eq_or_imp, forall_eq, or_false] at hdistinct
  obtain ⟨⟨hAB, hAeA, hAeB, hAbA, hAbB⟩, ⟨hBeA, hBeB, hBbA, hBbB⟩,
    ⟨heAeB, heAbA, heAbB⟩, ⟨heBbA, heBbB⟩, hbAbB, -⟩ := hdistinct
  obtain ⟨out, hout⟩ : ∃ o, runRes (install_package_cmd d pkg) = some o := by
    cases hcase : runRes (install_package_cmd d pkg) with
    | none => rw [hcase] at hrun; simp at hrun
    | some o => exact ⟨o, rfl⟩
  have hlf : list_files fs binDir = .ok [A, B] := by
    simp [list_files, fsExists_of_dir fs binDir hdir, finalPath_max_of_dir fs binDir hdir,
      hdir, hkids]
  have hstepA := replace_plain_step fs U eA cA mA hA hbA
  -- the target and backup path of the second iteration are untouched by
  -- the first one
  have hB1 : lookupFS (setFS (removeFS (setFS (setFS fs (backup_filename eA)
      (.file cA (mA &&& 0o777))) (backup_filename eA) (.file cA mA)) eA) eA (.symlink U)) eB
      = some (.file cB mB) := by
    rw [lookup_after_replace, if_neg (fun h => heAeB h.symm), if_neg heBbA]
    exact hB
  have hbB1 : lookupFS (setFS (removeFS (setFS (setFS fs (backup_filename eA)
      (.file cA (mA &&& 0o777))) (backup_filename eA) (.file cA mA)) eA) eA (.symlink U))
      (backup_filename eB) = none := by
    rw [lookup_after_replace, if_neg (fun h => heAbB h.symm), if_neg (fun h => hbAbB h.symm)]
    exact hbB
  have hstepB := replace_plain_step (setFS (removeFS (setFS (setFS fs (backup_filename eA)
      (.file cA (mA &&& 0o777))) (backup_filename eA) (.file cA mA)) eA) eA (.symlink U))
      U eB cB mB hB1 hbB1
  have henable : enable runRes whichMap d ⟨name, pkg, fsr, some U, binDir⟩ fs
      = .ok (setFS (removeFS (setFS (setFS (setFS (removeFS (setFS (setFS fs
            (backup_filename eA) (.file cA (mA &&& 0o777))) (backup_filename eA)
            (.file cA mA)) eA) eA (.symlink U)) (backup_filename eB)
            (.file cB (mB &&& 0o777))) (backup_filename eB) (.file cB mB)) eB) eB
            (.symlink U),
          [Event.cmd (install_package_cmd d pkg), Event.backupEv eA, Event.symlinkEv U eA,
           Event.backupEv eB, Event.symlinkEv U eB]) := by
    unfold enable
    dsimp only
    simp only [hout, hlf, enable_loop, heA, heB, hstepA, hstepB, List.cons_append,
      List.nil_append, List.append_nil]
  refine ⟨_, _, henable, ?_, ?_, ?_, ?_⟩
  · rw [lookup_after_replace, if_neg heAeB, if_neg heAbB, lookup_after_replace, if_pos rfl]
  · rw [lookup_after_replace, if_pos rfl]
  · rw [lookup_after_replace, if_neg hAeB, if_neg hAbB, lookup_after_replace,
      if_neg hAeA, if_neg hAbA]
  · rw [lookup_after_replace, if_neg hBeB, if_neg hBbB, lookup_after_replace,
      if_neg hBeA, if_neg hBbA]

/-- Witness for C10: a concrete unified-binary enable run with two
candidates `date` and `sort`, whose resolved existing paths
`/usr/bin/date` and `/usr/bin/sort` end up as symlinks to
`/usr/bin/coreutils`, the candidates themselves being untouched. -/
theorem c10_witness :
    ∃ fs1 tr,
      enable runAll whichUsr .Ubuntu
          ⟨"coreutils", "rust-coreutils", "24.04", some sampleCore, sampleBinDir⟩ sampleFsU
        = .ok (fs1, tr) ∧
      lookupFS fs1 sampleDate = some (.symlink sampleCore) ∧
      lookupFS fs1 sampleSort = some (.symlink sampleCore) ∧
      lookupFS fs1 sampleCandDate = lookupFS sampleFsU sampleCandDate ∧
      lookupFS fs1 sampleCandSort = lookupFS sampleFsU sampleCandSort :=
  c10_unified_binary_fan_in runAll whichUsr .Ubuntu "coreutils" "rust-coreutils" "24.04"
    sampleCore sampleBinDir sampleCandDate sampleCandSort sampleDate sampleSort sampleFsU
    [4] [5] 0o4755 493 (by decide) (by decide) (by decide) (by decide) (by decide)
    (by decide) (by decide) (by decide) (by decide) (by decide)

end Oxidizr
